import Mathlib

/-!
Shallow embedding of `src/scraper.py` (turkish-boite-scraper) and proofs of
the specification claims about it.

Python dicts with optional keys are embedded as structures with `Option`
fields: `none` models a missing key, `some v` a present key with value `v`.
`dict.get(k)` becomes the `Option` field itself, `dict.get(k, dflt)` becomes
`Option.getD dflt`.  External collaborators (the HTTP fetch and the OpenAI
classifier) are passed as explicit function parameters.
-/

namespace Scraper

/-! ### MD5 (RFC 1321)

`scraper.py` line 156 computes director identifiers as
`hashlib.md5(unique_str.encode("utf-8")).hexdigest()[:8]`; we embed the
MD5 algorithm itself (words are `Nat` reduced `&&& mask32`). -/

def mask32 : Nat := 4294967295

def rotl32 (x s : Nat) : Nat :=
  ((x <<< s) ||| (x >>> (32 - s))) &&& mask32

def utf8Char (c : Char) : List Nat :=
  let n := c.toNat
  if n < 128 then [n]
  else if n < 2048 then [192 ||| (n >>> 6), 128 ||| (n &&& 63)]
  else if n < 65536 then
    [224 ||| (n >>> 12), 128 ||| ((n >>> 6) &&& 63), 128 ||| (n &&& 63)]
  else
    [240 ||| (n >>> 18), 128 ||| ((n >>> 12) &&& 63),
     128 ||| ((n >>> 6) &&& 63), 128 ||| (n &&& 63)]

def utf8Encode (s : String) : List Nat :=
  s.data.flatMap utf8Char

def md5K : List Nat :=
  [0xd76aa478, 0xe8c7b756, 0x242070db, 0xc1bdceee,
   0xf57c0faf, 0x4787c62a, 0xa8304613, 0xfd469501,
   0x698098d8, 0x8b44f7af, 0xffff5bb1, 0x895cd7be,
   0x6b901122, 0xfd987193, 0xa679438e, 0x49b40821,
   0xf61e2562, 0xc040b340, 0x265e5a51, 0xe9b6c7aa,
   0xd62f105d, 0x02441453, 0xd8a1e681, 0xe7d3fbc8,
   0x21e1cde6, 0xc33707d6, 0xf4d50d87, 0x455a14ed,
   0xa9e3e905, 0xfcefa3f8, 0x676f02d9, 0x8d2a4c8a,
   0xfffa3942, 0x8771f681, 0x6d9d6122, 0xfde5380c,
   0xa4beea44, 0x4bdecfa9, 0xf6bb4b60, 0xbebfbc70,
   0x289b7ec6, 0xeaa127fa, 0xd4ef3085, 0x04881d05,
   0xd9d4d039, 0xe6db99e5, 0x1fa27cf8, 0xc4ac5665,
   0xf4292244, 0x432aff97, 0xab9423a7, 0xfc93a039,
   0x655b59c3, 0x8f0ccc92, 0xffeff47d, 0x85845dd1,
   0x6fa87e4f, 0xfe2ce6e0, 0xa3014314, 0x4e0811a1,
   0xf7537e82, 0xbd3af235, 0x2ad7d2bb, 0xeb86d391]

def md5S : List Nat :=
  [7, 12, 17, 22, 7, 12, 17, 22, 7, 12, 17, 22, 7, 12, 17, 22,
   5, 9, 14, 20, 5, 9, 14, 20, 5, 9, 14, 20, 5, 9, 14, 20,
   4, 11, 16, 23, 4, 11, 16, 23, 4, 11, 16, 23, 4, 11, 16, 23,
   6, 10, 15, 21, 6, 10, 15, 21, 6, 10, 15, 21, 6, 10, 15, 21]

def md5Pad (msg : List Nat) : List Nat :=
  let bitLen := msg.length * 8
  let padZeros := (55 + 64 - msg.length % 64) % 64
  msg ++ [128] ++ List.replicate padZeros 0 ++
    (List.range 8).map (fun i => (bitLen >>> (8 * i)) &&& 255)

def md5Word (block : List Nat) (g : Nat) : Nat :=
  block.getD (4 * g) 0 + ((block.getD (4 * g + 1) 0) <<< 8) +
    ((block.getD (4 * g + 2) 0) <<< 16) + ((block.getD (4 * g + 3) 0) <<< 24)

def md5Step (block : List Nat) (st : Nat × Nat × Nat × Nat) (i : Nat) :
    Nat × Nat × Nat × Nat :=
  let (a, b, c, d) := st
  let f :=
    if i < 16 then (b &&& c) ||| ((b ^^^ mask32) &&& d)
    else if i < 32 then (d &&& b) ||| ((d ^^^ mask32) &&& c)
    else if i < 48 then b ^^^ c ^^^ d
    else c ^^^ (b ||| (d ^^^ mask32))
  let g :=
    if i < 16 then i
    else if i < 32 then (5 * i + 1) % 16
    else if i < 48 then (3 * i + 5) % 16
    else (7 * i) % 16
  let tmp := (a + f + md5K.getD i 0 + md5Word block g) &&& mask32
  (d, (b + rotl32 tmp (md5S.getD i 0)) &&& mask32, b, c)

def md5Block (st : Nat × Nat × Nat × Nat) (block : List Nat) :
    Nat × Nat × Nat × Nat :=
  let (a, b, c, d) := (List.range 64).foldl (md5Step block) st
  ((st.1 + a) &&& mask32, (st.2.1 + b) &&& mask32,
   (st.2.2.1 + c) &&& mask32, (st.2.2.2 + d) &&& mask32)

def md5Chunks (msg : List Nat) (st : Nat × Nat × Nat × Nat) :
    Nat × Nat × Nat × Nat :=
  (List.range (msg.length / 64)).foldl
    (fun st i => md5Block st ((msg.drop (64 * i)).take 64)) st

def hexChar (n : Nat) : Char :=
  if n < 10 then Char.ofNat (48 + n) else Char.ofNat (87 + n)

def byteHex (b : Nat) : List Char :=
  [hexChar (b / 16), hexChar (b % 16)]

def wordLEBytes (w : Nat) : List Nat :=
  [w &&& 255, (w >>> 8) &&& 255, (w >>> 16) &&& 255, (w >>> 24) &&& 255]

def md5Digest (msg : List Nat) : List Nat :=
  let (a, b, c, d) :=
    md5Chunks (md5Pad msg) (0x67452301, 0xefcdab89, 0x98badcfe, 0x10325476)
  wordLEBytes a ++ wordLEBytes b ++ wordLEBytes c ++ wordLEBytes d

def md5Hexdigest (s : String) : String :=
  ⟨(md5Digest (utf8Encode s)).flatMap byteHex⟩

/-! ### Data model

A raw registry payload (`response.json()` from `get_companies`) and the
company dicts that flow through `format_results`, `results_cleanup_and_enrich`
and `write_csv`.  `none` = key absent from the dict. -/

/-- A `dirigeants` array element of the registry payload.  `id` and
`origine_turque` are the keys added later by `results_cleanup_and_enrich`
(absent in raw payloads unless the input already carried them). -/
structure Dirigeant where
  nom : Option String := none
  prenoms : Option String := none
  date_de_naissance : Option String := none
  qualite : Option String := none
  type_dirigeant : Option String := none
  nationalite : Option String := none
  id : Option String := none
  origine_turque : Option Bool := none
deriving DecidableEq, Repr

/-- The nested `siege` object of a raw company. -/
structure Siege where
  adresse : Option String := none
  code_postal : Option String := none
  libelle_commune : Option String := none
deriving DecidableEq, Repr

/-- A raw company object of the registry `results` array. -/
structure RawCompany where
  siren : Option String := none
  nom_complet : Option String := none
  nom_raison_sociale : Option String := none
  activite_principale : Option String := none
  dirigeants : Option (List Dirigeant) := none
  siege : Option Siege := none
  date_creation : Option String := none
  nature_juridique : Option String := none
deriving DecidableEq, Repr

/-- The decoded JSON of one page (or the error object built by
`get_companies` on failure: `{"results": [], "error": str(e)}`). -/
structure RawPayload where
  results : Option (List RawCompany) := none
  total_pages : Option Nat := none
  error : Option String := none
deriving DecidableEq, Repr

/-- The error object `get_companies` returns when the HTTP request raises. -/
def get_companies_error (msg : String) : RawPayload :=
  { results := some [], error := some msg }

/-- A company dict as produced by `format_results` (and consumed by
`results_cleanup_and_enrich` / `write_csv`).  `error` models the `"error"`
key of a pure error descriptor entry. -/
structure CEntry where
  error : Option String := none
  siren : Option String := none
  nom_complet : Option String := none
  nom_raison_sociale : Option String := none
  activite_principale : Option String := none
  dirigeants : Option (List Dirigeant) := none
  adresse : Option String := none
  code_postal : Option String := none
  libelle_commune : Option String := none
  date_creation : Option String := none
  nature_juridique : Option String := none
deriving DecidableEq, Repr

/-! ### `format_results` and `get_companies_listing` (scraper.py 50-108)

The HTTP boundary `get_companies` is abstracted by a `fetch` function from a
page number to the payload it returns (it never raises: on failure it returns
`get_companies_error msg`).  The query parameters (naf, nature_juridique,
postal_code, departement) are fixed for one listing run and are closed over
by `fetch`. -/

def format_one (company : RawCompany) : CEntry :=
  { siren := company.siren
    nom_complet := company.nom_complet
    nom_raison_sociale := company.nom_raison_sociale
    activite_principale := company.activite_principale
    dirigeants := some (company.dirigeants.getD [])
    adresse := some ((company.siege.getD {}).adresse.getD "")
    code_postal := some ((company.siege.getD {}).code_postal.getD "")
    libelle_commune := some ((company.siege.getD {}).libelle_commune.getD "")
    date_creation := company.date_creation
    nature_juridique := company.nature_juridique }

def format_results (companies : RawPayload) : List CEntry :=
  (companies.results.getD []).map format_one

/-- Return value of `get_companies_listing`: either the normal
`{"results_count": ..., "results": ...}` dict or the degenerate
single-element error list `[{"error": str(e)}]`. -/
inductive ListingResult where
  | ok : Nat → List CEntry → ListingResult
  | errorList : String → ListingResult
deriving DecidableEq, Repr

def get_companies_listing (fetch : Nat → RawPayload) : ListingResult :=
  let data := fetch 1
  let total_pages := data.total_pages.getD 1
  let all_results :=
    format_results data ++
      (if total_pages > 1 then
        (List.range' 2 (total_pages - 1)).flatMap (fun p => format_results (fetch p))
      else [])
  .ok all_results.length all_results

/-! ### `results_cleanup_and_enrich` (scraper.py 141-189) -/

def FILTRE_QUALITE : List String :=
  ["Liquidateur",
   "Commissaire aux comptes titulaire",
   "Commissaire aux comptes supplÃ©ant"]

/-- The filter predicate of the list comprehension at lines 148-153:
`d.get("type_dirigeant") == "personne physique" and d.get("qualite") not in
FILTRE_QUALITE` (a missing `qualite` is `None`, which is not in the list). -/
def keep_dirigeant (d : Dirigeant) : Bool :=
  d.type_dirigeant == some "personne physique" &&
    !(FILTRE_QUALITE.map some).contains d.qualite

/-- Embeds `hashlib.md5(f"{nom}{prenoms}".encode("utf-8")).hexdigest()[:8]`. -/
def dirigeant_id (d : Dirigeant) : String :=
  (md5Hexdigest ((d.nom.getD "") ++ (d.prenoms.getD ""))).take 8

/-- One element of `all_dirigeants`, the flat list sent to the classifier. -/
structure FlatDirigeant where
  id : String
  nom : String
  prenoms : String
deriving DecidableEq, Repr

def flat_of (d : Dirigeant) : FlatDirigeant :=
  { id := dirigeant_id d, nom := d.nom.getD "", prenoms := d.prenoms.getD "" }

/-- The per-company loop body at lines 148-165: filter the directors, assign
each survivor its `id`. -/
def clean_dirigeants (ds : List Dirigeant) : List Dirigeant :=
  (ds.filter keep_dirigeant).map (fun d => { d with id := some (dirigeant_id d) })

/-- The first `for company in companies` loop (lines 142-165): returns the
`cleaned` list and the `all_dirigeants` flat list, in input order. -/
def cleanup_list : List CEntry → List CEntry × List FlatDirigeant
  | [] => ([], [])
  | c :: rest =>
    let r := cleanup_list rest
    if c.error.isSome then (c :: r.1, r.2)
    else
      let ds := clean_dirigeants (c.dirigeants.getD [])
      ({ c with dirigeants := some ds } :: r.1, ds.map flat_of ++ r.2)

/-- One classifier result (the `OrigineTurc` pydantic model, line 111). -/
structure OrigineTurc where
  id : String
  origine_turque : Bool
deriving DecidableEq, Repr

/-- Embeds `next((item for item in turkish_origins if item.id == dirigeant["id"]), None)`. -/
def lookup_match (turkish_origins : List OrigineTurc) (i : String) :
    Option OrigineTurc :=
  turkish_origins.find? (fun item => item.id == i)

/-- The inner `for dirigeant in company.get("dirigeants", [])` loop of lines
174-186.  `dirigeant["id"]` raises `KeyError` when the key is absent; the
`Bool` flag records whether the loop finished without raising (mutations made
before the raise are kept, matching Python's in-place updates). -/
def enrich_dirigeants (turkish_origins : List OrigineTurc) :
    List Dirigeant → List Dirigeant × Bool
  | [] => ([], true)
  | d :: rest =>
    match d.id with
    | none => (d :: rest, false)
    | some i =>
      let d' := { d with
        origine_turque := some (match lookup_match turkish_origins i with
          | some m => m.origine_turque
          | none => false) }
      let r := enrich_dirigeants turkish_origins rest
      (d' :: r.1, r.2)

/-- The outer `for company in cleaned` loop of lines 173-186, stopping at the
first `KeyError` (companies after it keep their pre-loop directors). -/
def enrich_companies (turkish_origins : List OrigineTurc) :
    List CEntry → List CEntry
  | [] => []
  | c :: rest =>
    let r := enrich_dirigeants turkish_origins (c.dirigeants.getD [])
    let c' := if c.dirigeants.isSome then { c with dirigeants := some r.1 } else c
    if r.2 then c' :: enrich_companies turkish_origins rest
    else c' :: rest

/-- Embeds `results_cleanup_and_enrich`.  `classify` abstracts the external
`identify_turkish_names` call: `.error` models the call raising (caught at
line 187), `.ok` its parsed result list. -/
def results_cleanup_and_enrich
    (classify : List FlatDirigeant → Except String (List OrigineTurc))
    (companies : List CEntry) (check_turkish_names : Bool) : List CEntry :=
  let cleaned := (cleanup_list companies).1
  let all_dirigeants := (cleanup_list companies).2
  if check_turkish_names then
    if all_dirigeants.isEmpty then cleaned
    else
      match classify all_dirigeants with
      | .ok turkish_origins => enrich_companies turkish_origins cleaned
      | .error _ => cleaned
  else cleaned

/-! ### `write_csv` (scraper.py 192-248)

Modelled as the sequence of rows written to the CSV file, each row the list
of its 14 cells in header order.  `csv` renders Python `None` and a missing
`DictWriter` field (`restval`) as the empty string, and booleans via `str`. -/

def csv_headers : List String :=
  ["dirigeant_nom", "dirigeant_prenoms", "dirigeant_date_de_naissance",
   "dirigeant_qualite", "dirigeant_origine_turque", "dirigeant_nationalite",
   "siren", "nom_complet", "activite_principale", "adresse", "code_postal",
   "libelle_commune", "date_creation", "nature_juridique"]

/-- Renders `str(b)` for a Python bool, as the `csv` module writes it. -/
def pyBoolStr (b : Bool) : String := if b then "True" else "False"

/-- The row dict `{**dirigeant_data, **company_data}` rendered to cells in
`csv_headers` order.  The dict has no `dirigeant_nationalite` key, so
`DictWriter` fills that column with its default `restval`, the empty
string. -/
def dirigeant_row (company : CEntry) (d : Dirigeant) : List String :=
  [d.nom.getD "", d.prenoms.getD "", d.date_de_naissance.getD "",
   d.qualite.getD "", pyBoolStr (d.origine_turque.getD false), "",
   company.siren.getD "", company.nom_complet.getD "",
   company.activite_principale.getD "", company.adresse.getD "",
   company.code_postal.getD "", company.libelle_commune.getD "",
   company.date_creation.getD "", company.nature_juridique.getD ""]

/-- The data rows: the nested `for company in companies` /
`for dirigeant in company.get("dirigeants", [])` loops of lines 219-247. -/
def write_rows : List CEntry → List (List String)
  | [] => []
  | c :: rest => (c.dirigeants.getD []).map (dirigeant_row c) ++ write_rows rest

/-- Embeds `write_csv`: header row (from `writer.writeheader()`) then data rows. -/
def write_csv (companies : List CEntry) : List (List String) :=
  csv_headers :: write_rows companies

/-! ### Concrete fixtures used by witnesses and counterexamples -/

def w1_dir : Dirigeant :=
  { nom := some "Yilmaz", prenoms := some "Mehmet",
    date_de_naissance := some "1980-01", qualite := some "Gérant",
    type_dirigeant := some "personne physique", nationalite := some "Turque" }

def w1_liquidateur : Dirigeant :=
  { nom := some "Martin", prenoms := some "Paul",
    qualite := some "Liquidateur", type_dirigeant := some "personne physique" }

def w1_morale : Dirigeant :=
  { nom := some "Holding SA", type_dirigeant := some "personne morale" }

def w1_company : CEntry :=
  { siren := some "123456789", nom_complet := some "BOITE SARL",
    dirigeants := some [w1_dir, w1_liquidateur, w1_morale] }

/-- A classifier that answers every submitted id with `origine_turque = true`. -/
def w1_classify : List FlatDirigeant → Except String (List OrigineTurc) :=
  fun flat => .ok (flat.map (fun f => { id := f.id, origine_turque := true }))

/-- A classifier whose call raises (models an OpenAI transport error). -/
def failing_classify : List FlatDirigeant → Except String (List OrigineTurc) :=
  fun _ => .error "APIConnectionError"

def w1_out_dir : Dirigeant :=
  { w1_dir with id := some (dirigeant_id w1_dir), origine_turque := some true }

def w1_out_company : CEntry :=
  { w1_company with dirigeants := some [w1_out_dir] }

def w1_clean_dir : Dirigeant :=
  { w1_dir with id := some (dirigeant_id w1_dir) }

def w1_clean_company : CEntry :=
  { w1_company with dirigeants := some [w1_clean_dir] }

/-- A three-page mocked registry with distinct markers per page. -/
def c2_fetch : Nat → RawPayload := fun p =>
  if p = 1 then
    { total_pages := some 3, results := some [{ siren := some "page1" }] }
  else if p = 2 then
    { total_pages := some 3,
      results := some [{ siren := some "page2a" }, { siren := some "page2b" }] }
  else
    { total_pages := some 3, results := some [{ siren := some "page3" }] }

def c4_dir : Dirigeant :=
  { nom := some "Kaya", nationalite := some "Turque" }

def c4_company : CEntry :=
  { siren := some "987654321", dirigeants := some [c4_dir] }

def c5_dir : Dirigeant :=
  { nom := some "Yildiz", prenoms := some "Ahmet",
    type_dirigeant := some "personne physique" }

/-- Two companies sharing one identically-named director. -/
def c5_companies : List CEntry :=
  [{ siren := some "111111111", dirigeants := some [c5_dir] },
   { siren := some "222222222", dirigeants := some [c5_dir] }]

/-- A payload whose single raw company has every key missing. -/
def c6_payload : RawPayload :=
  { results := some [{}], total_pages := some 1 }

/-- A pure error descriptor entry (no `dirigeants` key). -/
def c10_error_entry : CEntry := { error := some "HTTPError" }

end Scraper

namespace Scraper

set_option maxRecDepth 8000

/-! ### Sanity: the MD5 embedding is RFC 1321 MD5 -/

/-- RFC 1321 test vector: the embedding of `hashlib.md5` is the real MD5. -/
theorem md5Hexdigest_abc :
    md5Hexdigest "abc" = "900150983cd24fb0d6963f7d28e17f72" := by decide

/-- RFC 1321 test vector for the empty string. -/
theorem md5Hexdigest_empty :
    md5Hexdigest "" = "d41d8cd98f00b204e9800998ecf8427e" := by decide

/-! ### Helper lemmas -/

theorem cleanup_list_cons_err {c : CEntry} {rest : List CEntry}
    (he : c.error.isSome) :
    cleanup_list (c :: rest) =
      (c :: (cleanup_list rest).1, (cleanup_list rest).2) := by
  simp [cleanup_list, he]

theorem cleanup_list_cons_ok {c : CEntry} {rest : List CEntry}
    (he : c.error.isSome = false) :
    cleanup_list (c :: rest) =
      ({ c with dirigeants := some (clean_dirigeants (c.dirigeants.getD [])) }
          :: (cleanup_list rest).1,
        (clean_dirigeants (c.dirigeants.getD [])).map flat_of ++
          (cleanup_list rest).2) := by
  simp [cleanup_list, he]

theorem clean_dirigeants_src {ds : List Dirigeant} {d' : Dirigeant}
    (h : d' ∈ clean_dirigeants ds) :
    ∃ d ∈ ds, keep_dirigeant d = true ∧
      d' = { d with id := some (dirigeant_id d) } := by
  simp only [clean_dirigeants, List.mem_map, List.mem_filter] at h
  obtain ⟨d, ⟨hd, hk⟩, rfl⟩ := h
  exact ⟨d, hd, hk, rfl⟩

theorem keep_dirigeant_fields {d d' : Dirigeant}
    (h1 : d'.type_dirigeant = d.type_dirigeant) (h2 : d'.qualite = d.qualite) :
    keep_dirigeant d' = keep_dirigeant d := by
  unfold keep_dirigeant
  rw [h1, h2]

theorem keep_dirigeant_spec {d : Dirigeant} (h : keep_dirigeant d = true) :
    d.type_dirigeant = some "personne physique" ∧
      ∀ q ∈ FILTRE_QUALITE, d.qualite ≠ some q := by
  simp [keep_dirigeant] at h
  refine ⟨h.1, fun q hq heq => ?_⟩
  exact h.2 q hq heq.symm

theorem cleanup_list_src {cs : List CEntry} {c' : CEntry}
    (h : c' ∈ (cleanup_list cs).1) :
    ∃ c ∈ cs,
      (c.error.isSome = true ∧ c' = c) ∨
      (c.error = none ∧
        c' = { c with
          dirigeants := some (clean_dirigeants (c.dirigeants.getD [])) }) := by
  induction cs with
  | nil => simp [cleanup_list] at h
  | cons c rest ih =>
    by_cases he : c.error.isSome
    · rw [cleanup_list_cons_err he] at h
      rcases List.mem_cons.1 h with rfl | h
      · exact ⟨c', List.mem_cons_self c' rest, Or.inl ⟨he, rfl⟩⟩
      · obtain ⟨c₀, hc₀, hor⟩ := ih h
        exact ⟨c₀, List.mem_cons_of_mem c hc₀, hor⟩
    · rw [cleanup_list_cons_ok (Bool.not_eq_true _ ▸ he)] at h
      rcases List.mem_cons.1 h with rfl | h
      · exact ⟨c, List.mem_cons_self c rest,
          Or.inr ⟨Option.not_isSome_iff_eq_none.1 he, rfl⟩⟩
      · obtain ⟨c₀, hc₀, hor⟩ := ih h
        exact ⟨c₀, List.mem_cons_of_mem c hc₀, hor⟩

theorem cleanup_list_length (cs : List CEntry) :
    (cleanup_list cs).1.length = cs.length := by
  induction cs with
  | nil => rfl
  | cons c rest ih =>
    by_cases he : c.error.isSome
    · rw [cleanup_list_cons_err he]
      simp [ih]
    · rw [cleanup_list_cons_ok (Bool.not_eq_true _ ▸ he)]
      simp [ih]

theorem enrich_dirigeants_src {tos : List OrigineTurc} {ds : List Dirigeant}
    {d' : Dirigeant} (h : d' ∈ (enrich_dirigeants tos ds).1) :
    ∃ d ∈ ds, d'.type_dirigeant = d.type_dirigeant ∧ d'.qualite = d.qualite := by
  induction ds with
  | nil => simp [enrich_dirigeants] at h
  | cons d rest ih =>
    cases hid : d.id with
    | none =>
      simp only [enrich_dirigeants, hid] at h
      exact ⟨d', h, rfl, rfl⟩
    | some i =>
      simp only [enrich_dirigeants, hid] at h
      rcases List.mem_cons.1 h with rfl | h
      · exact ⟨d, List.mem_cons_self d rest, rfl, rfl⟩
      · obtain ⟨d₀, hd₀, h1, h2⟩ := ih h
        exact ⟨d₀, List.mem_cons_of_mem d hd₀, h1, h2⟩

theorem enrich_companies_cons (tos : List OrigineTurc) (c : CEntry)
    (rest : List CEntry) :
    enrich_companies tos (c :: rest) =
      (if c.dirigeants.isSome
        then { c with
          dirigeants := some (enrich_dirigeants tos (c.dirigeants.getD [])).1 }
        else c) ::
      (if (enrich_dirigeants tos (c.dirigeants.getD [])).2
        then enrich_companies tos rest else rest) := by
  by_cases hok : (enrich_dirigeants tos (c.dirigeants.getD [])).2 <;>
    simp [enrich_companies, hok]

theorem enrich_companies_src {tos : List OrigineTurc} {cs : List CEntry}
    {c' : CEntry} (h : c' ∈ enrich_companies tos cs) :
    ∃ c ∈ cs, c'.error = c.error ∧
      ∀ d' ∈ c'.dirigeants.getD [], ∃ d ∈ c.dirigeants.getD [],
        d'.type_dirigeant = d.type_dirigeant ∧ d'.qualite = d.qualite := by
  induction cs with
  | nil => simp [enrich_companies] at h
  | cons c rest ih =>
    rw [enrich_companies_cons] at h
    rcases List.mem_cons.1 h with rfl | h
    · refine ⟨c, List.mem_cons_self c rest, ?_⟩
      by_cases hds : c.dirigeants.isSome
      · rw [if_pos hds]
        refine ⟨rfl, fun d' hd' => ?_⟩
        have hd'' : d' ∈ (enrich_dirigeants tos (c.dirigeants.getD [])).1 := by
          simpa using hd'
        exact enrich_dirigeants_src hd''
      · rw [if_neg hds]
        exact ⟨rfl, fun d' hd' => ⟨d', hd', rfl, rfl⟩⟩
    · by_cases hok : (enrich_dirigeants tos (c.dirigeants.getD [])).2
      · rw [if_pos hok] at h
        obtain ⟨c₀, hc₀, hor⟩ := ih h
        exact ⟨c₀, List.mem_cons_of_mem c hc₀, hor⟩
      · rw [if_neg hok] at h
        exact ⟨c', List.mem_cons_of_mem c h, rfl, fun d' hd' => ⟨d', hd', rfl, rfl⟩⟩

/-- Every director of an error-free company in the `cleaned` list passed the
line 148-153 filter. -/
theorem cleaned_keep {cs : List CEntry} {c : CEntry}
    (hc : c ∈ (cleanup_list cs).1) (he : c.error = none) :
    ∀ d ∈ c.dirigeants.getD [], keep_dirigeant d = true := by
  intro d hd
  obtain ⟨c₀, _, hor⟩ := cleanup_list_src hc
  rcases hor with ⟨hiso, rfl⟩ | ⟨_, rfl⟩
  · rw [he] at hiso
    simp at hiso
  · have hd' : d ∈ clean_dirigeants (c₀.dirigeants.getD []) := by simpa using hd
    obtain ⟨d₀, _, hk, rfl⟩ := clean_dirigeants_src hd'
    exact (keep_dirigeant_fields rfl rfl).trans hk

/-- The same invariant survives the classification pass. -/
theorem enriched_keep {tos : List OrigineTurc} {cs : List CEntry} {c : CEntry}
    (hc : c ∈ enrich_companies tos (cleanup_list cs).1) (he : c.error = none) :
    ∀ d ∈ c.dirigeants.getD [], keep_dirigeant d = true := by
  intro d hd
  obtain ⟨c₁, hc₁, herr, hdir⟩ := enrich_companies_src hc
  obtain ⟨d₁, hd₁, ht, hq⟩ := hdir d hd
  exact (keep_dirigeant_fields ht hq).trans
    (cleaned_keep hc₁ (herr.symm.trans he) d₁ hd₁)

/-- The output of `results_cleanup_and_enrich` is either the `cleaned` list
or its enrichment by some classifier answer. -/
theorem results_cleanup_cases
    (classify : List FlatDirigeant → Except String (List OrigineTurc))
    (companies : List CEntry) (check : Bool) :
    results_cleanup_and_enrich classify companies check =
        (cleanup_list companies).1 ∨
      ∃ tos, classify (cleanup_list companies).2 = .ok tos ∧
        results_cleanup_and_enrich classify companies check =
          enrich_companies tos (cleanup_list companies).1 := by
  simp only [results_cleanup_and_enrich]
  by_cases hb : check = true
  · rw [if_pos hb]
    by_cases hemp : (cleanup_list companies).2.isEmpty
    · rw [if_pos hemp]
      exact Or.inl rfl
    · rw [if_neg hemp]
      cases hcl : classify (cleanup_list companies).2 with
      | ok tos => exact Or.inr ⟨tos, rfl, rfl⟩
      | error msg => exact Or.inl rfl
  · rw [if_neg hb]
    exact Or.inl rfl

/-- Claim C1: Every director remaining in the `dirigeants` list of any
non-error company returned by `results_cleanup_and_enrich` (for every input
company list and both values of the check-names flag) has `type_dirigeant`
equal to `"personne physique"` and a `qualite` outside the fixed
excluded-roles list `FILTRE_QUALITE`. -/
theorem claim_C1
    (classify : List FlatDirigeant → Except String (List OrigineTurc))
    (companies : List CEntry) (check : Bool) (c : CEntry)
    (hc : c ∈ results_cleanup_and_enrich classify companies check)
    (he : c.error = none) (d : Dirigeant) (hd : d ∈ c.dirigeants.getD []) :
    d.type_dirigeant = some "personne physique" ∧
      ∀ q ∈ FILTRE_QUALITE, d.qualite ≠ some q := by
  rcases results_cleanup_cases classify companies check with heq | ⟨tos, _, heq⟩
  · rw [heq] at hc
    exact keep_dirigeant_spec (cleaned_keep hc he d hd)
  · rw [heq] at hc
    exact keep_dirigeant_spec (enriched_keep hc he d hd)

/-- Witness for C1 at a concrete run: one qualifying director among a
liquidator and a non-person director, with the classifier answering. -/
theorem claim_C1_witness :
    w1_out_dir.type_dirigeant = some "personne physique" ∧
      ∀ q ∈ FILTRE_QUALITE, w1_out_dir.qualite ≠ some q :=
  claim_C1 w1_classify [w1_company] true w1_out_company (by decide) (by decide)
    w1_out_dir (by decide)

/-- Claim C2: When every page fetch succeeds (page 1 reports `total_pages = n`,
`n ≥ 1`), `get_companies_listing` returns the concatenation of the normalized
results of pages 1..n in ascending page order (intra-page order preserved by
`format_results`, which is a `map`), and `results_count` is the sum of the
per-page result counts. -/
theorem claim_C2 (fetch : Nat → RawPayload) (n : Nat)
    (h : (fetch 1).total_pages = some n) (hn : 1 ≤ n) :
    get_companies_listing fetch =
      .ok ((List.range' 1 n).map
            (fun p => (format_results (fetch p)).length)).sum
        ((List.range' 1 n).flatMap (fun p => format_results (fetch p))) := by
  obtain ⟨m, rfl⟩ : ∃ m, n = m + 1 := ⟨n - 1, (Nat.succ_pred_eq_of_pos hn).symm⟩
  simp only [get_companies_listing, h, Option.getD_some, Nat.add_sub_cancel]
  have hL : (format_results (fetch 1) ++
        if m + 1 > 1 then
          (List.range' 2 m).flatMap (fun p => format_results (fetch p))
        else []) =
      (List.range' 1 (m + 1)).flatMap (fun p => format_results (fetch p)) := by
    rw [List.range'_succ, List.flatMap_cons]
    cases m with
    | zero => simp [List.range']
    | succ k => rw [if_pos (by omega)]
  rw [hL, List.length_flatMap]
  rfl

/-- Witness for C2: a mocked three-page registry with distinct markers. -/
theorem claim_C2_witness :
    (c2_fetch 1).total_pages = some 3 ∧
    get_companies_listing c2_fetch =
      .ok ((List.range' 1 3).map
            (fun p => (format_results (c2_fetch p)).length)).sum
        ((List.range' 1 3).flatMap (fun p => format_results (c2_fetch p))) :=
  ⟨rfl, claim_C2 c2_fetch 3 rfl (by decide)⟩

/-- Claim C9: When the page-1 request fails inside `get_companies` (which
returns `{"results": [], "error": msg}` instead of raising),
`get_companies_listing` does not return the single-element error list: it
returns the normal-shaped `.ok` mapping with `results_count = 0` and an empty
results list, identical to the output for a registry that genuinely reports
zero results — the caller cannot tell the two runs apart. -/
theorem claim_C9 (fetch : Nat → RawPayload) (msg : String)
    (h : fetch 1 = get_companies_error msg) :
    get_companies_listing fetch = .ok 0 [] ∧
    get_companies_listing
        (fun _ => ({ results := some [], total_pages := some 1 } : RawPayload)) =
      .ok 0 [] := by
  constructor
  · simp [get_companies_listing, h, get_companies_error, format_results]
  · simp [get_companies_listing, format_results]

/-- Witness for C9: a registry whose page-1 request times out. -/
theorem claim_C9_witness :
    get_companies_listing (fun _ => get_companies_error "timeout") = .ok 0 [] ∧
    get_companies_listing
        (fun _ => ({ results := some [], total_pages := some 1 } : RawPayload)) =
      .ok 0 [] :=
  claim_C9 (fun _ => get_companies_error "timeout") "timeout" rfl

theorem write_rows_eq (cs : List CEntry) :
    write_rows cs =
      cs.flatMap (fun c => (c.dirigeants.getD []).map (dirigeant_row c)) := by
  induction cs with
  | nil => rfl
  | cons c rest ih => simp [write_rows, ih]

/-- Claim C3: `write_csv` emits exactly one header row carrying the fixed
14-column schema, then exactly one data row per (company, director) pair in
input order; a company with zero surviving directors contributes zero data
rows (the row count is `1 +` the sum of the director-list lengths). -/
theorem claim_C3 (companies : List CEntry) :
    write_csv companies =
      csv_headers ::
        companies.flatMap (fun c => (c.dirigeants.getD []).map (dirigeant_row c)) ∧
    csv_headers.length = 14 ∧
    (write_csv companies).length =
      1 + (companies.map (fun c => (c.dirigeants.getD []).length)).sum := by
  refine ⟨by rw [write_csv, write_rows_eq], rfl, ?_⟩
  rw [write_csv]
  simp [write_rows_eq, List.length_flatMap, Function.comp_def, List.length_map,
    Nat.add_comm]

/-- Claim C4, counterexample: The `dirigeant_nationalite` column (index 5 of
the header) is the empty string even for a director whose `nationalite`
field is populated: the row dict built at lines 235-243 never copies
`nationalite`, so `DictWriter` fills the column with its empty `restval`. -/
theorem claim_C4_counterexample :
    c4_dir.nationalite = some "Turque" ∧
    csv_headers.getD 5 "" = "dirigeant_nationalite" ∧
    write_csv [c4_company] = [csv_headers, dirigeant_row c4_company c4_dir] ∧
    (dirigeant_row c4_company c4_dir).getD 5 "?" = "" := by decide

/-- Claim C4, amended: Every output row's director-derived columns *except*
`dirigeant_nationalite` equal the corresponding director's fields (with the
empty string for a missing field and `str(False)` for a missing origin flag);
`dirigeant_nationalite` is always the empty string; and the company-level
columns equal the company's fields, hence are identical across all rows of
the same company. -/
theorem claim_C4_amended (companies : List CEntry) (c : CEntry) (d : Dirigeant)
    (hc : c ∈ companies) (hd : d ∈ c.dirigeants.getD []) :
    dirigeant_row c d ∈ write_csv companies ∧
    (dirigeant_row c d).getD 0 "" = d.nom.getD "" ∧
    (dirigeant_row c d).getD 1 "" = d.prenoms.getD "" ∧
    (dirigeant_row c d).getD 2 "" = d.date_de_naissance.getD "" ∧
    (dirigeant_row c d).getD 3 "" = d.qualite.getD "" ∧
    (dirigeant_row c d).getD 4 "" = pyBoolStr (d.origine_turque.getD false) ∧
    (dirigeant_row c d).getD 5 "" = "" ∧
    (dirigeant_row c d).getD 6 "" = c.siren.getD "" ∧
    (dirigeant_row c d).getD 7 "" = c.nom_complet.getD "" ∧
    (dirigeant_row c d).getD 8 "" = c.activite_principale.getD "" ∧
    (dirigeant_row c d).getD 9 "" = c.adresse.getD "" ∧
    (dirigeant_row c d).getD 10 "" = c.code_postal.getD "" ∧
    (dirigeant_row c d).getD 11 "" = c.libelle_commune.getD "" ∧
    (dirigeant_row c d).getD 12 "" = c.date_creation.getD "" ∧
    (dirigeant_row c d).getD 13 "" = c.nature_juridique.getD "" := by
  refine ⟨?_, rfl, rfl, rfl, rfl, rfl, rfl, rfl, rfl, rfl, rfl, rfl, rfl, rfl, rfl⟩
  rw [write_csv]
  apply List.mem_cons_of_mem
  rw [write_rows_eq]
  exact List.mem_flatMap.2 ⟨c, hc, List.mem_map_of_mem _ hd⟩

/-- Witness for the amended C4 at a concrete company and director. -/
theorem claim_C4_amended_witness :
    dirigeant_row c4_company c4_dir ∈ write_csv [c4_company] ∧
    (dirigeant_row c4_company c4_dir).getD 0 "" = c4_dir.nom.getD "" ∧
    (dirigeant_row c4_company c4_dir).getD 1 "" = c4_dir.prenoms.getD "" ∧
    (dirigeant_row c4_company c4_dir).getD 2 "" =
      c4_dir.date_de_naissance.getD "" ∧
    (dirigeant_row c4_company c4_dir).getD 3 "" = c4_dir.qualite.getD "" ∧
    (dirigeant_row c4_company c4_dir).getD 4 "" =
      pyBoolStr (c4_dir.origine_turque.getD false) ∧
    (dirigeant_row c4_company c4_dir).getD 5 "" = "" ∧
    (dirigeant_row c4_company c4_dir).getD 6 "" = c4_company.siren.getD "" ∧
    (dirigeant_row c4_company c4_dir).getD 7 "" =
      c4_company.nom_complet.getD "" ∧
    (dirigeant_row c4_company c4_dir).getD 8 "" =
      c4_company.activite_principale.getD "" ∧
    (dirigeant_row c4_company c4_dir).getD 9 "" = c4_company.adresse.getD "" ∧
    (dirigeant_row c4_company c4_dir).getD 10 "" =
      c4_company.code_postal.getD "" ∧
    (dirigeant_row c4_company c4_dir).getD 11 "" =
      c4_company.libelle_commune.getD "" ∧
    (dirigeant_row c4_company c4_dir).getD 12 "" =
      c4_company.date_creation.getD "" ∧
    (dirigeant_row c4_company c4_dir).getD 13 "" =
      c4_company.nature_juridique.getD "" :=
  claim_C4_amended [c4_company] c4_company c4_dir (by decide) (by decide)

/-- Claim C5, counterexample: The flat `all_dirigeants` list handed to the
classifier is *not* deduplicated: two companies sharing an identically-named
director contribute two entries with the same identifier. -/
theorem claim_C5_counterexample :
    ¬ ((cleanup_list c5_companies).2.map FlatDirigeant.id).Nodup ∧
    (cleanup_list c5_companies).2.length = 2 := by decide

/-- Claim C5, amended: The flat list collected for classification contains one
`{id, nom, prenoms}` entry per surviving director occurrence across all
non-error companies, in input order and with multiplicities kept — no
deduplication is performed, so identical names yield duplicate identifier
entries. -/
theorem claim_C5_amended (companies : List CEntry) :
    (cleanup_list companies).2 =
      companies.flatMap (fun c =>
        if c.error.isSome then []
        else (clean_dirigeants (c.dirigeants.getD [])).map flat_of) := by
  induction companies with
  | nil => rfl
  | cons c rest ih =>
    by_cases he : c.error.isSome
    · simp [cleanup_list_cons_err he, he, ih]
    · simp [cleanup_list_cons_ok (Bool.not_eq_true _ ▸ he), he, ih]

/-- Claim C6, counterexample: `format_results` does not default every missing
field: for a raw company object with no keys at all, the normalized record's
`siren` and `date_creation` (among others) are `None`, not a safe default. -/
theorem claim_C6_counterexample :
    (format_results c6_payload).map CEntry.siren = [none] ∧
    (format_results c6_payload).map CEntry.date_creation = [none] := by decide

/-- Claim C6, amended: `format_results` gives safe defaults only to
`dirigeants` (empty list) and to the three flattened address fields (empty
string); `siren`, `nom_complet`, `nom_raison_sociale`, `activite_principale`,
`date_creation` and `nature_juridique` are passed through unchanged and stay
`None` when missing from the payload.  No record ever carries an `error`
key. -/
theorem claim_C6_amended (payload : RawPayload) (e : CEntry)
    (he : e ∈ format_results payload) :
    e.error = none ∧ e.dirigeants.isSome ∧ e.adresse.isSome ∧
      e.code_postal.isSome ∧ e.libelle_commune.isSome ∧
      ∃ raw ∈ payload.results.getD [],
        e.siren = raw.siren ∧ e.nom_complet = raw.nom_complet ∧
        e.nom_raison_sociale = raw.nom_raison_sociale ∧
        e.activite_principale = raw.activite_principale ∧
        e.date_creation = raw.date_creation ∧
        e.nature_juridique = raw.nature_juridique ∧
        (raw.dirigeants = none → e.dirigeants = some []) ∧
        (raw.siege = none → e.adresse = some "" ∧ e.code_postal = some "" ∧
          e.libelle_commune = some "") := by
  simp only [format_results, List.mem_map] at he
  obtain ⟨raw, hraw, rfl⟩ := he
  refine ⟨rfl, rfl, rfl, rfl, rfl, raw, hraw, rfl, rfl, rfl, rfl, rfl, rfl,
    ?_, ?_⟩
  · intro h
    simp [format_one, h]
  · intro h
    exact ⟨by simp [format_one, h], by simp [format_one, h],
      by simp [format_one, h]⟩

/-- Witness for the amended C6 at the all-keys-missing raw company. -/
theorem claim_C6_amended_witness :
    (format_one ({} : RawCompany)).error = none ∧
    (format_one ({} : RawCompany)).dirigeants.isSome ∧
    (format_one ({} : RawCompany)).adresse.isSome ∧
    (format_one ({} : RawCompany)).code_postal.isSome ∧
    (format_one ({} : RawCompany)).libelle_commune.isSome ∧
    ∃ raw ∈ c6_payload.results.getD [],
      (format_one ({} : RawCompany)).siren = raw.siren ∧
      (format_one ({} : RawCompany)).nom_complet = raw.nom_complet ∧
      (format_one ({} : RawCompany)).nom_raison_sociale =
        raw.nom_raison_sociale ∧
      (format_one ({} : RawCompany)).activite_principale =
        raw.activite_principale ∧
      (format_one ({} : RawCompany)).date_creation = raw.date_creation ∧
      (format_one ({} : RawCompany)).nature_juridique = raw.nature_juridique ∧
      (raw.dirigeants = none →
        (format_one ({} : RawCompany)).dirigeants = some []) ∧
      (raw.siege = none →
        (format_one ({} : RawCompany)).adresse = some "" ∧
        (format_one ({} : RawCompany)).code_postal = some "" ∧
        (format_one ({} : RawCompany)).libelle_commune = some "") :=
  claim_C6_amended c6_payload (format_one {}) (by decide)

/-- Claim C7: If the classifier call raises, `results_cleanup_and_enrich`
catches the failure and returns the cleaned (filtered, identifier-assigned)
but unclassified company list; no entry is dropped (the output has one entry
per input company). -/
theorem claim_C7
    (classify : List FlatDirigeant → Except String (List OrigineTurc))
    (companies : List CEntry) (msg : String)
    (h : classify (cleanup_list companies).2 = .error msg) :
    results_cleanup_and_enrich classify companies true =
      (cleanup_list companies).1 ∧
    (results_cleanup_and_enrich classify companies true).length =
      companies.length := by
  have h1 : results_cleanup_and_enrich classify companies true =
      (cleanup_list companies).1 := by
    simp only [results_cleanup_and_enrich, if_true]
    by_cases hemp : (cleanup_list companies).2.isEmpty
    · rw [if_pos hemp]
    · rw [if_neg hemp, h]
  exact ⟨h1, by rw [h1, cleanup_list_length]⟩

/-- Witness for C7: a raising classifier on a one-company list. -/
theorem claim_C7_witness :
    results_cleanup_and_enrich failing_classify [w1_company] true =
      (cleanup_list [w1_company]).1 ∧
    (results_cleanup_and_enrich failing_classify [w1_company] true).length =
      ([w1_company] : List CEntry).length :=
  claim_C7 failing_classify [w1_company] "APIConnectionError" rfl

/-- Directors in the `cleaned` list keep the `origine_turque` value (usually
an absent key) they had in the input. -/
theorem cleaned_origine_src {cs : List CEntry} {c' : CEntry}
    (hc : c' ∈ (cleanup_list cs).1) :
    ∀ d' ∈ c'.dirigeants.getD [], ∃ c ∈ cs, ∃ d ∈ c.dirigeants.getD [],
      d'.origine_turque = d.origine_turque := by
  intro d' hd'
  obtain ⟨c, hcmem, hor⟩ := cleanup_list_src hc
  rcases hor with ⟨_, heq⟩ | ⟨_, heq⟩
  · exact ⟨c, hcmem, d', heq ▸ hd', rfl⟩
  · rw [heq] at hd'
    have hd'' : d' ∈ clean_dirigeants (c.dirigeants.getD []) := by simpa using hd'
    obtain ⟨d₀, hd₀, _, rfl⟩ := clean_dirigeants_src hd''
    exact ⟨c, hcmem, d₀, hd₀, rfl⟩

/-- Claim C8: When the check-names flag is false, or the collected flat
director list is empty, `results_cleanup_and_enrich` returns the cleaned
companies as-is: the result is the `cleaned` list, is independent of the
classifier (so no classification call can influence it), and every returned
director carries exactly the `origine_turque` state of its input director
(absent unless already present in the input). -/
theorem claim_C8
    (classify classify' : List FlatDirigeant → Except String (List OrigineTurc))
    (companies : List CEntry) (check : Bool)
    (h : check = false ∨ (cleanup_list companies).2 = []) :
    results_cleanup_and_enrich classify companies check =
      (cleanup_list companies).1 ∧
    results_cleanup_and_enrich classify companies check =
      results_cleanup_and_enrich classify' companies check ∧
    ∀ c' ∈ results_cleanup_and_enrich classify companies check,
      ∀ d' ∈ c'.dirigeants.getD [],
        ∃ c ∈ companies, ∃ d ∈ c.dirigeants.getD [],
          d'.origine_turque = d.origine_turque := by
  have h1 : ∀ cl : List FlatDirigeant → Except String (List OrigineTurc),
      results_cleanup_and_enrich cl companies check =
        (cleanup_list companies).1 := by
    intro cl
    rcases h with rfl | hemp
    · simp [results_cleanup_and_enrich]
    · simp [results_cleanup_and_enrich, hemp]
  refine ⟨h1 classify, (h1 classify).trans (h1 classify').symm, ?_⟩
  rw [h1 classify]
  exact fun c' hc' => cleaned_origine_src hc'

/-- Witness for C8 with the flag off and two different classifiers. -/
theorem claim_C8_witness :
    results_cleanup_and_enrich failing_classify [w1_company] false =
      (cleanup_list [w1_company]).1 ∧
    results_cleanup_and_enrich failing_classify [w1_company] false =
      results_cleanup_and_enrich w1_classify [w1_company] false ∧
    ∀ c' ∈ results_cleanup_and_enrich failing_classify [w1_company] false,
      ∀ d' ∈ c'.dirigeants.getD [],
        ∃ c ∈ [w1_company], ∃ d ∈ c.dirigeants.getD [],
          d'.origine_turque = d.origine_turque :=
  claim_C8 failing_classify w1_classify [w1_company] false (Or.inl rfl)

/-- Claim C10: `write_csv` emits zero data rows for entries with no
`dirigeants` list (pure error descriptors): a list of such entries yields the
header row alone, with no error indication in the file. -/
theorem claim_C10 (companies : List CEntry)
    (h : ∀ c ∈ companies, c.dirigeants = none) :
    write_csv companies = [csv_headers] := by
  rw [write_csv]
  have hrows : write_rows companies = [] := by
    induction companies with
    | nil => rfl
    | cons c rest ih =>
      rw [write_rows, h c (List.mem_cons_self c rest)]
      exact ih (fun c' hc' => h c' (List.mem_cons_of_mem c hc'))
  rw [hrows]

/-- Witness for C10: a list holding only an error descriptor. -/
theorem claim_C10_witness :
    write_csv [c10_error_entry] = [csv_headers] :=
  claim_C10 [c10_error_entry] (by decide)

end Scraper
